import Mathlib

/-!
Verification of the HTTP server in `src/main.rs` (a codecrafters-style
HTTP/1.1 server written in Rust with tokio and nom).

Bytes are modelled as natural numbers; Rust `String` values are modelled as
their UTF-8 byte lists together with the `validUtf8` predicate (Rust's
`std::str::from_utf8` succeeds exactly on valid UTF-8).  The nom combinators
used by the source (`tag`, `take_while`, `alt`, `many1`) are embedded as
functions from byte lists to an optional pair of (remaining input, output);
`many1` additionally threads the panic that `from_utf8(..).unwrap()` can
raise inside `header`, so parser outcomes live in the three-valued type
`POut` (ok / parse error / panic).
-/

/-- UTF-8 bytes of an ASCII string literal (all literals used by the source
are ASCII, where each char's code point is its single UTF-8 byte). -/
def ascii (s : String) : List Nat := s.data.map Char.toNat

/-- Continuation byte of a UTF-8 multi-byte sequence: 0x80..0xBF. -/
def contByte (b : Nat) : Bool := 128 ≤ b && b ≤ 191

/-- A single-byte (ASCII) UTF-8 sequence: 0x00..0x7F. -/
def utf8Lead1 (b : Nat) : Bool := b ≤ 127

/-- A valid two-byte UTF-8 sequence: lead 0xC2..0xDF plus one continuation
byte (leads 0xC0/0xC1 would be overlong and are invalid). -/
def utf8Pair (b c1 : Nat) : Bool := 194 ≤ b && b ≤ 223 && contByte c1

/-- A valid three-byte UTF-8 sequence: lead 0xE0 restricts the first
continuation to 0xA0..0xBF (no overlongs), lead 0xED restricts it to
0x80..0x9F (no surrogates), the other leads 0xE1..0xEC, 0xEE, 0xEF take any
continuation; the second byte is always a plain continuation. -/
def utf8Triple (b c1 c2 : Nat) : Bool :=
  ((b = 224 && (160 ≤ c1 && c1 ≤ 191)) ||
   (((225 ≤ b && b ≤ 236) || b = 238 || b = 239) && contByte c1) ||
   (b = 237 && (128 ≤ c1 && c1 ≤ 159))) && contByte c2

/-- A valid four-byte UTF-8 sequence: lead 0xF0 restricts the first
continuation to 0x90..0xBF (no overlongs), leads 0xF1..0xF3 take any
continuation, lead 0xF4 restricts it to 0x80..0x8F (code points at most
U+10FFFF); the remaining two bytes are plain continuations. -/
def utf8Quad (b c1 c2 c3 : Nat) : Bool :=
  ((b = 240 && (144 ≤ c1 && c1 ≤ 191)) ||
   ((241 ≤ b && b ≤ 243) && contByte c1) ||
   (b = 244 && (128 ≤ c1 && c1 ≤ 143))) && contByte c2 && contByte c3

/-- UTF-8 validity of a byte sequence, as checked by Rust's
`std::str::from_utf8` (RFC 3629: sequences of one to four bytes, rejecting
overlongs, surrogates and code points above U+10FFFF).  The byte classes of
`utf8Lead1`/`utf8Pair`/`utf8Triple`/`utf8Quad` have mutually exclusive lead
ranges, so the if-chains try exactly the sequence length that the lead byte
dictates; inputs shorter than the dictated length are invalid. -/
def validUtf8 : List Nat → Bool
  | [] => true
  | [b] => utf8Lead1 b
  | [b, c1] =>
    if utf8Lead1 b then validUtf8 [c1]
    else utf8Pair b c1
  | [b, c1, c2] =>
    if utf8Lead1 b then validUtf8 [c1, c2]
    else if utf8Pair b c1 then validUtf8 [c2]
    else utf8Triple b c1 c2
  | b :: c1 :: c2 :: c3 :: r =>
    if utf8Lead1 b then validUtf8 (c1 :: c2 :: c3 :: r)
    else if utf8Pair b c1 then validUtf8 (c2 :: c3 :: r)
    else if utf8Triple b c1 c2 then validUtf8 (c3 :: r)
    else if utf8Quad b c1 c2 c3 then validUtf8 r
    else false

/-- A header as produced by the source's `header` parser: `name` and `value`
are the byte contents of the two Rust `String` fields. -/
structure Header where
  name : List Nat
  value : List Nat
  deriving DecidableEq

/-- The source's `Request` struct: `method`, `path`, `version` are Rust
`String`s (modelled as their UTF-8 bytes), `content` is the `Vec<u8>` of
everything left in the read buffer after the header-terminating blank line. -/
structure Request where
  method : List Nat
  path : List Nat
  version : List Nat
  headers : List Header
  content : List Nat
  deriving DecidableEq

/-- Outcome of a parser that can also panic: Rust `IResult` success, a nom
parse error, or a panic raised by `from_utf8(..).unwrap()` on invalid UTF-8. -/
inductive POut (α : Type) where
  | ok : α → POut α
  | err : POut α
  | panic : POut α
  deriving DecidableEq

/-- nom `tag(t)`: succeeds iff `t` is a prefix of the input, consuming it and
returning the matched bytes. -/
def tagP (t input : List Nat) : Option (List Nat × List Nat) :=
  if t.isPrefixOf input then some (input.drop t.length, t) else none

/-- nom `take_while(p)`: always succeeds, consuming the longest prefix whose
bytes satisfy `p` and returning it. -/
def takeWhileP (p : Nat → Bool) (input : List Nat) : Option (List Nat × List Nat) :=
  some (input.dropWhile p, input.takeWhile p)

/-- The source's `method` parser: `alt((tag("GET"), tag("POST")))`. -/
def methodP (input : List Nat) : Option (List Nat × List Nat) :=
  match tagP (ascii "GET") input with
  | some r => some r
  | none => tagP (ascii "POST") input

/-- The source's `header` parser: `name ": " value CRLF`, where `name` is the
longest colon-free run and `value` the longest CR-free run; both fields are
then passed through `from_utf8(..).unwrap()`, which panics on invalid UTF-8. -/
def headerP (input : List Nat) : POut (List Nat × Header) :=
  match takeWhileP (fun b => b != 58) input with
  | none => .err
  | some (i1, name) =>
    match tagP (ascii ": ") i1 with
    | none => .err
    | some (i2, _) =>
      match takeWhileP (fun b => b != 13) i2 with
      | none => .err
      | some (i3, value) =>
        match tagP (ascii "\r\n") i3 with
        | none => .err
        | some (i4, _) =>
          if validUtf8 name && validUtf8 value then .ok (i4, ⟨name, value⟩)
          else .panic

/-- nom `many1(header)`.  The fuel argument only bounds the recursion; the
source's `header` consumes at least the 4 bytes of `": "` and `"\r\n"` on
every success (`headerP_ok_length` below), so with fuel `input.length + 1`
the fuel never runs out before the inner parser fails. -/
def many1F : Nat → List Nat → POut (List Nat × List Header)
  | 0, _ => .err
  | fuel + 1, input =>
    match headerP input with
    | .panic => .panic
    | .err => .err
    | .ok (rest, hd) =>
      match many1F fuel rest with
      | .ok (rest2, tl) => .ok (rest2, hd :: tl)
      | .err => .ok (rest, [hd])
      | .panic => .panic

/-- The source's `parse_request`: request line, optional header block
(a failing `many1` is replaced by the empty header list), blank line, and the
rest of the buffer as `content`; the three request-line fields go through
`from_utf8(..).unwrap()`, which panics on invalid UTF-8. -/
def parseRequest (input : List Nat) : POut (List Nat × Request) :=
  match methodP input with
  | none => .err
  | some (i1, m) =>
  match tagP (ascii " ") i1 with
  | none => .err
  | some (i2, _) =>
  match takeWhileP (fun b => b != 32) i2 with
  | none => .err
  | some (i3, p) =>
  match tagP (ascii " ") i3 with
  | none => .err
  | some (i4, _) =>
  match tagP (ascii "HTTP/1.1") i4 with
  | none => .err
  | some (i5, v) =>
  match tagP (ascii "\r\n") i5 with
  | none => .err
  | some (i6, _) =>
  match (match many1F (i6.length + 1) i6 with
         | .err => .ok (i6, ([] : List Header))
         | o => o : POut (List Nat × List Header)) with
  | .panic => .panic
  | .err => .err
  | .ok (i7, hs) =>
  match tagP (ascii "\r\n") i7 with
  | none => .err
  | some (i8, _) =>
  if validUtf8 m && validUtf8 p && validUtf8 v then
    .ok (i8, ⟨m, p, v, hs, i8⟩)
  else .panic

/-- The source's `read_request` buffer handling: a single `stream.read` into
a zeroed `[0; 1024]` buffer whose returned byte count is discarded, so the
parser always sees the first 1024 bytes sent, zero-padded to length 1024. -/
def pad1024 (raw : List Nat) : List Nat :=
  raw.take 1024 ++ List.replicate (1024 - raw.length) 0

/-- The source's `read_request`: parse the zero-padded 1024-byte buffer and
drop the leftover-input component of the nom result. -/
def readRequest (raw : List Nat) : POut Request :=
  match parseRequest (pad1024 raw) with
  | .ok (_, req) => .ok req
  | .err => .err
  | .panic => .panic

/-- A complete response as formatted by the source: status line (status code
with its reason phrase is determined by `status`), optional
`Content-Type` and `Content-Length` headers, and the body bytes written after
the blank line.  The source only ever formats `200 OK`, `201 CREATED` and
`404 NOT FOUND`. -/
structure Response where
  status : Nat
  contentType : Option (List Nat)
  contentLength : Option Nat
  body : List Nat
  deriving DecidableEq

/-- The bare `HTTP/1.1 404 NOT FOUND\r\n\r\n` response. -/
def resp404 : Response := ⟨404, none, none, []⟩

/-- The bare `HTTP/1.1 201 CREATED\r\n\r\n` response. -/
def resp201 : Response := ⟨201, none, none, []⟩

/-- One result of `socket.try_read` in the POST drain loop: `eof` is
`Ok(0)`, `data bs` is `Ok(n)` delivering the bytes `bs`, and `err` is any
`Err(_)` (in particular `WouldBlock` from the non-blocking read). -/
inductive DrainStep where
  | eof : DrainStep
  | data : List Nat → DrainStep
  | err : DrainStep
  deriving DecidableEq

/-- The source's POST drain loop over a trace of `try_read` results: `Ok(0)`
breaks the loop, `Ok(n)` appends the bytes to the file and continues, and
`Err(_)` does nothing and continues.  `none` means the trace was exhausted
without an `Ok(0)`, i.e. the loop is still spinning (it never exits on
errors alone); `some bs` means the loop exited having appended `bs`. -/
def drainLoop : List DrainStep → Option (List Nat)
  | [] => none
  | .eof :: _ => some []
  | .data bs :: t => (drainLoop t).map (fun rest => bs ++ rest)
  | .err :: t => drainLoop t

/-- All bytes delivered by `data` steps of a trace, in order: what the drain
loop has appended to the file after consuming the whole trace. -/
def allDrainData : List DrainStep → List Nat
  | [] => []
  | .eof :: _ => []
  | .data bs :: t => bs ++ allDrainData t
  | .err :: t => allDrainData t

/-- Environment of one connection: the file system contents consulted by the
GET `/files` branch (path bytes to file contents), whether
`tokio::fs::File::create` succeeds in the POST branch, whether the
`file.write(&request.content)` call succeeds (its result is discarded by the
source either way), the trace of `try_read` results seen by the drain
loop, and `readErrAt`: when `some k`, the k-th `file.read` of the GET
streaming loop returns `Err(_)` instead of the next chunk. -/
structure Oracle where
  fs : List Nat → Option (List Nat)
  createOk : Bool
  contentWriteOk : Bool
  drain : List DrainStep
  readErrAt : Option Nat

/-- The source's GET `/files` streaming loop: each `file.read` delivers the
next 1024-byte chunk of the file and the chunk is written to the socket; a
read returning 0 bytes breaks the loop.  `errAt = some k` makes the k-th
read return `Err(_)` instead (upon which the source writes a trailing 404
response and returns, even though the 200 header block is already on the
wire).  Returns the bytes streamed to the socket before the loop ended, and
whether a read error aborted it.  The fuel only bounds the recursion: every
iteration on a non-empty file consumes at least one byte, so the fuel
`contents.length + 1` used by `streamLoop` never runs out. -/
def streamLoopF : Nat → List Nat → Option Nat → List Nat × Bool
  | 0, _, _ => ([], false)
  | fuel + 1, contents, errAt =>
    if errAt = some 0 then ([], true)
    else if contents = [] then ([], false)
    else
      let rest := streamLoopF fuel (contents.drop 1024) (errAt.map (fun n => n - 1))
      (contents.take 1024 ++ rest.1, rest.2)

/-- The source's GET `/files` streaming loop at adequate fuel. -/
def streamLoop (contents : List Nat) (errAt : Option Nat) : List Nat × Bool :=
  streamLoopF (contents.length + 1) contents errAt

/-- The source's `/user-agent` loop: the response variable starts as the
`Content-Length: 0` default and is overwritten by the first header whose
name equals `"User-Agent"`, after which the loop breaks. -/
def uaLoop : List Header → Response
  | [] => ⟨200, some (ascii "text/plain"), some 0, []⟩
  | h :: t =>
    if h.name = ascii "User-Agent" then
      ⟨200, some (ascii "text/plain"), some h.value.length, h.value⟩
    else uaLoop t

/-- The source's `handle_files`: dispatch on the request method.  Returns the
responses written to the socket in order, and the file-system effect as
`some (path, contents)` when a file was created.  GET consults the oracle's
file system (`metadata` and `File::open` see the same file, so their two
404 arms collapse into one); the 200 response declares the metadata length
while its body is whatever the streaming loop managed to read, and a
mid-stream read error appends the source's trailing 404 response after the
truncated 200; POST creates the
file, writes `request.content` (result discarded), runs the drain loop and
answers 201 once the drain loop exits; if the drain trace never delivers
`Ok(0)` the loop spins forever and no response is written. -/
def handleFiles (o : Oracle) (req : Request) (filePath : List Nat) :
    List Response × Option (List Nat × List Nat) :=
  if req.method = ascii "GET" then
    match o.fs filePath with
    | none => ([resp404], none)
    | some c =>
        let st := streamLoop c o.readErrAt
        (⟨200, some (ascii "application/octet-stream"), some c.length, st.1⟩
            :: (if st.2 then [resp404] else []), none)
  else if req.method = ascii "POST" then
    if o.createOk then
      let base := if o.contentWriteOk then req.content else []
      match drainLoop o.drain with
      | some extra => ([resp201], some (filePath, base ++ extra))
      | none => ([], some (filePath, base ++ allDrainData o.drain))
    else ([resp404], none)
  else ([resp404], none)

/-- The source's `write_response` dispatch on `request.path`: exact matches
`"/"` and `"/user-agent"`, then the `starts_with("/echo/")` and
`starts_with("/files/")` guards (inside which `splitn(2, pat).nth(1)` yields
the suffix after the prefix, which sits at position 0 by the guard), then
the 404 fallback.  `/files` requires a configured directory and joins it
with the file name by a single `/`. -/
def writeResponse (o : Oracle) (directory : Option (List Nat)) (req : Request) :
    List Response × Option (List Nat × List Nat) :=
  if req.path = ascii "/" then
    ([⟨200, none, none, []⟩], none)
  else if req.path = ascii "/user-agent" then
    ([uaLoop req.headers], none)
  else if (ascii "/echo/").isPrefixOf req.path then
    let message := req.path.drop (ascii "/echo/").length
    ([⟨200, some (ascii "text/plain"), some message.length, message⟩], none)
  else if (ascii "/files/").isPrefixOf req.path then
    match directory with
    | none => ([resp404], none)
    | some d =>
      let file := req.path.drop (ascii "/files/").length
      handleFiles o req (d ++ [47] ++ file)
  else ([resp404], none)

/-- One whole connection as the source handles it: `read_request` then
`write_response`; a parse error or a panic drops the connection with no
response written and no file touched. -/
def handleConnection (o : Oracle) (directory : Option (List Nat)) (raw : List Nat) :
    List Response × Option (List Nat × List Nat) :=
  match readRequest raw with
  | .ok req => writeResponse o directory req
  | _ => ([], none)

/-- One encoded header line `name ": " value CRLF` of the spec grammar. -/
def encodeHeader (h : List Nat × List Nat) : List Nat :=
  h.1 ++ ascii ": " ++ h.2 ++ ascii "\r\n"

/-- An encoded header block: the concatenation of its header lines. -/
def encodeHeaders : List (List Nat × List Nat) → List Nat
  | [] => []
  | h :: t => encodeHeader h ++ encodeHeaders t

/-- A GET request of the spec's shape
`GET <path> HTTP/1.1\r\n<headers>\r\n\r\n<body>` (each header line carrying
its own CRLF, then the terminating blank line, then the body). -/
def encodeGet (path : List Nat) (headers : List (List Nat × List Nat))
    (body : List Nat) : List Nat :=
  ascii "GET " ++ path ++ ascii " HTTP/1.1\r\n" ++ encodeHeaders headers
    ++ ascii "\r\n" ++ body

/-- Well-formedness of the fields of an encoded request, following the
spec's grammar and data model: the path is space-free valid UTF-8, header
names are colon-free valid UTF-8, header values are CR-free valid UTF-8. -/
def wellFormedFields (path : List Nat) (headers : List (List Nat × List Nat)) : Prop :=
  32 ∉ path ∧ validUtf8 path = true ∧
    ∀ h ∈ headers,
      58 ∉ h.1 ∧ validUtf8 h.1 = true ∧ 13 ∉ h.2 ∧ validUtf8 h.2 = true

instance (path : List Nat) (headers : List (List Nat × List Nat)) :
    Decidable (wellFormedFields path headers) := by
  unfold wellFormedFields
  infer_instance

theorem takeWhile_append_stop (p : Nat → Bool) (a : List Nat) (c : Nat) (r : List Nat)
    (ha : ∀ x ∈ a, p x = true) (hc : p c = false) :
    (a ++ c :: r).takeWhile p = a := by
  induction a with
  | nil => simp [List.takeWhile_cons, hc]
  | cons x t ih =>
    have hx := ha x (List.mem_cons_self x t)
    simp [List.takeWhile_cons, hx,
      ih (fun y hy => ha y (List.mem_cons_of_mem x hy))]

theorem dropWhile_append_stop (p : Nat → Bool) (a : List Nat) (c : Nat) (r : List Nat)
    (ha : ∀ x ∈ a, p x = true) (hc : p c = false) :
    (a ++ c :: r).dropWhile p = c :: r := by
  induction a with
  | nil => simp [List.dropWhile_cons, hc]
  | cons x t ih =>
    have hx := ha x (List.mem_cons_self x t)
    simp [List.dropWhile_cons, hx,
      ih (fun y hy => ha y (List.mem_cons_of_mem x hy))]

theorem takeWhile_all (p : Nat → Bool) (a : List Nat)
    (ha : ∀ x ∈ a, p x = true) : a.takeWhile p = a := by
  induction a with
  | nil => simp
  | cons x t ih =>
    have hx := ha x (List.mem_cons_self x t)
    simp [List.takeWhile_cons, hx,
      ih (fun y hy => ha y (List.mem_cons_of_mem x hy))]

theorem dropWhile_all (p : Nat → Bool) (a : List Nat)
    (ha : ∀ x ∈ a, p x = true) : a.dropWhile p = [] := by
  induction a with
  | nil => simp
  | cons x t ih =>
    have hx := ha x (List.mem_cons_self x t)
    simp [List.dropWhile_cons, hx,
      ih (fun y hy => ha y (List.mem_cons_of_mem x hy))]

theorem tagP_append (t r : List Nat) : tagP t (t ++ r) = some (r, t) := by
  simp [tagP, List.isPrefixOf_iff_prefix, List.prefix_append, List.drop_left]

theorem tagP_space_cons (r : List Nat) :
    tagP (ascii " ") (32 :: r) = some (r, ascii " ") := by
  have h : (32 : Nat) :: r = ascii " " ++ r := rfl
  rw [h, tagP_append]

theorem tagP_crlf_cons (r : List Nat) :
    tagP (ascii "\r\n") (13 :: 10 :: r) = some (r, ascii "\r\n") := by
  have h : (13 : Nat) :: 10 :: r = ascii "\r\n" ++ r := rfl
  rw [h, tagP_append]

theorem methodP_get (r : List Nat) :
    methodP (ascii "GET" ++ r) = some (r, ascii "GET") := by
  simp [methodP, tagP_append]

theorem headerP_exact (n v r : List Nat) (hn : 58 ∉ n) (hv : 13 ∉ v)
    (hun : validUtf8 n = true) (huv : validUtf8 v = true) :
    headerP (n ++ 58 :: 32 :: (v ++ 13 :: 10 :: r)) = .ok (r, ⟨n, v⟩) := by
  have hn' : ∀ x ∈ n, (x != 58) = true := by
    intro x hx
    simp only [bne_iff_ne, ne_eq]
    exact fun hx58 => hn (hx58 ▸ hx)
  have hv' : ∀ x ∈ v, (x != 13) = true := by
    intro x hx
    simp only [bne_iff_ne, ne_eq]
    exact fun hx13 => hv (hx13 ▸ hx)
  have e1 : (n ++ 58 :: 32 :: (v ++ 13 :: 10 :: r)).takeWhile (fun b => b != 58) = n :=
    takeWhile_append_stop _ n 58 _ hn' (by simp)
  have e2 : (n ++ 58 :: 32 :: (v ++ 13 :: 10 :: r)).dropWhile (fun b => b != 58)
      = 58 :: 32 :: (v ++ 13 :: 10 :: r) :=
    dropWhile_append_stop _ n 58 _ hn' (by simp)
  have e3 : tagP (ascii ": ") (58 :: 32 :: (v ++ 13 :: 10 :: r))
      = some (v ++ 13 :: 10 :: r, ascii ": ") := by
    have h : (58 : Nat) :: 32 :: (v ++ 13 :: 10 :: r) = ascii ": " ++ (v ++ 13 :: 10 :: r) := rfl
    rw [h, tagP_append]
  have e4 : (v ++ 13 :: 10 :: r).takeWhile (fun b => b != 13) = v :=
    takeWhile_append_stop _ v 13 _ hv' (by simp)
  have e5 : (v ++ 13 :: 10 :: r).dropWhile (fun b => b != 13) = 13 :: 10 :: r :=
    dropWhile_append_stop _ v 13 _ hv' (by simp)
  simp [headerP, takeWhileP, e1, e2, e3, e4, e5, tagP_crlf_cons, hun, huv]

theorem headerP_no_colon (l : List Nat) (h : ∀ x ∈ l, x ≠ 58) : headerP l = .err := by
  have h' : ∀ x ∈ l, (x != 58) = true := by
    intro x hx
    simp only [bne_iff_ne, ne_eq]
    exact h x hx
  have e1 : l.takeWhile (fun b => b != 58) = l := takeWhile_all _ l h'
  have e2 : l.dropWhile (fun b => b != 58) = [] := dropWhile_all _ l h'
  have e3 : tagP (ascii ": ") [] = none := rfl
  simp [headerP, takeWhileP, e1, e2, e3]

theorem encodeHeaders_length (hs : List (List Nat × List Nat)) :
    hs.length ≤ (encodeHeaders hs).length := by
  induction hs with
  | nil => simp [encodeHeaders]
  | cons h t ih =>
    simp only [encodeHeaders, encodeHeader, List.length_append, List.length_cons]
    have : 1 ≤ (ascii ": ").length := by simp [ascii]
    omega

theorem encodeHeaders_cons_shape (h : List Nat × List Nat)
    (t : List (List Nat × List Nat)) (tail : List Nat) :
    encodeHeaders (h :: t) ++ tail
      = h.1 ++ 58 :: 32 :: (h.2 ++ 13 :: 10 :: (encodeHeaders t ++ tail)) := by
  have e1 : ascii ": " = [58, 32] := rfl
  have e2 : ascii "\r\n" = [13, 10] := rfl
  simp [encodeHeaders, encodeHeader, e1, e2]

theorem many1F_encodeHeaders (hs : List (List Nat × List Nat)) (tail : List Nat)
    (hwf : ∀ h ∈ hs, 58 ∉ h.1 ∧ validUtf8 h.1 = true ∧ 13 ∉ h.2 ∧ validUtf8 h.2 = true)
    (htail : headerP tail = .err) :
    ∀ fuel, hs.length + 1 ≤ fuel →
    many1F fuel (encodeHeaders hs ++ tail)
      = if hs = [] then .err
        else .ok (tail, hs.map (fun h => ⟨h.1, h.2⟩)) := by
  induction hs with
  | nil =>
    intro fuel hfuel
    obtain ⟨f, rfl⟩ : ∃ f, fuel = f + 1 := ⟨fuel - 1, by omega⟩
    simp [encodeHeaders, many1F, htail]
  | cons h t ih =>
    intro fuel hfuel
    obtain ⟨f, rfl⟩ : ∃ f, fuel = f + 1 := ⟨fuel - 1, by omega⟩
    obtain ⟨h58, hu1, h13, hu2⟩ := hwf h (List.mem_cons_self h t)
    have hwt : ∀ x ∈ t, 58 ∉ x.1 ∧ validUtf8 x.1 = true ∧ 13 ∉ x.2 ∧ validUtf8 x.2 = true :=
      fun x hx => hwf x (List.mem_cons_of_mem h hx)
    have hfuel' : t.length + 1 ≤ f := by
      simp only [List.length_cons] at hfuel
      omega
    have hstep : headerP (encodeHeaders (h :: t) ++ tail)
        = .ok (encodeHeaders t ++ tail, ⟨h.1, h.2⟩) := by
      rw [encodeHeaders_cons_shape]
      exact headerP_exact h.1 h.2 _ h58 h13 hu1 hu2
    have ihr := ih hwt f hfuel'
    cases t with
    | nil =>
      simp only [encodeHeaders, List.nil_append, if_pos] at ihr
      simp only [encodeHeaders, List.nil_append, List.append_nil] at hstep
      simp [many1F, encodeHeaders, hstep, ihr]
    | cons h2 t2 =>
      simp only [if_neg (by simp : ¬(h2 :: t2) = [])] at ihr
      simp [many1F, hstep, ihr]

theorem encodeGet_shape (path : List Nat) (hs : List (List Nat × List Nat))
    (body : List Nat) :
    encodeGet path hs body
      = ascii "GET" ++ 32 :: (path ++ 32 :: (ascii "HTTP/1.1"
          ++ 13 :: 10 :: (encodeHeaders hs ++ 13 :: 10 :: body))) := by
  have e1 : ascii "GET " = ascii "GET" ++ [32] := rfl
  have e2 : ascii " HTTP/1.1\r\n" = 32 :: (ascii "HTTP/1.1" ++ [13, 10]) := rfl
  have e3 : ascii "\r\n" = [13, 10] := rfl
  simp [encodeGet, e1, e2, e3]

theorem takeWhileP_path (path r : List Nat) (hp : 32 ∉ path) :
    takeWhileP (fun b => b != 32) (path ++ 32 :: r) = some (32 :: r, path) := by
  have hp' : ∀ x ∈ path, (x != 32) = true := by
    intro x hx
    simp only [bne_iff_ne, ne_eq]
    exact fun h32 => hp (h32 ▸ hx)
  simp [takeWhileP, takeWhile_append_stop _ path 32 r hp' (by simp),
    dropWhile_append_stop _ path 32 r hp' (by simp)]

theorem validUtf8_ascii_get : validUtf8 (ascii "GET") = true := rfl

theorem validUtf8_ascii_http : validUtf8 (ascii "HTTP/1.1") = true := rfl

theorem parseRequest_encodeGet (path : List Nat) (hs : List (List Nat × List Nat))
    (body : List Nat) (hp32 : 32 ∉ path) (hpu : validUtf8 path = true)
    (hh : ∀ h ∈ hs, 58 ∉ h.1 ∧ validUtf8 h.1 = true ∧ 13 ∉ h.2 ∧ validUtf8 h.2 = true)
    (htail : headerP (13 :: 10 :: body) = .err) :
    parseRequest (encodeGet path hs body)
      = .ok (body, ⟨ascii "GET", path, ascii "HTTP/1.1",
                    hs.map (fun h => ⟨h.1, h.2⟩), body⟩) := by
  rw [encodeGet_shape]
  have hm := methodP_get
    (32 :: (path ++ 32 :: (ascii "HTTP/1.1" ++ 13 :: 10 :: (encodeHeaders hs ++ 13 :: 10 :: body))))
  have hsp1 := tagP_space_cons
    (path ++ 32 :: (ascii "HTTP/1.1" ++ 13 :: 10 :: (encodeHeaders hs ++ 13 :: 10 :: body)))
  have hpath := takeWhileP_path path
    (ascii "HTTP/1.1" ++ 13 :: 10 :: (encodeHeaders hs ++ 13 :: 10 :: body)) hp32
  have hsp2 := tagP_space_cons
    (ascii "HTTP/1.1" ++ 13 :: 10 :: (encodeHeaders hs ++ 13 :: 10 :: body))
  have hver := tagP_append (ascii "HTTP/1.1")
    (13 :: 10 :: (encodeHeaders hs ++ 13 :: 10 :: body))
  have hcrlf1 := tagP_crlf_cons (encodeHeaders hs ++ 13 :: 10 :: body)
  have hdrs := many1F_encodeHeaders hs (13 :: 10 :: body) hh htail
    ((encodeHeaders hs ++ 13 :: 10 :: body).length + 1)
    (by
      have := encodeHeaders_length hs
      simp only [List.length_append]
      omega)
  have hcrlf2 := tagP_crlf_cons body
  simp only [parseRequest, hm, hsp1, hpath, hsp2, hver, hcrlf1]
  rw [hdrs]
  cases hs with
  | nil =>
    simp [encodeHeaders, hcrlf2, hpu, validUtf8_ascii_get, validUtf8_ascii_http]
  | cons h t =>
    simp [hcrlf2, hpu, validUtf8_ascii_get, validUtf8_ascii_http]

theorem tagP_some (t i r o : List Nat) (h : tagP t i = some (r, o)) :
    r = i.drop t.length ∧ t.isPrefixOf i = true := by
  rw [tagP] at h
  by_cases hp : t.isPrefixOf i
  · rw [if_pos hp] at h
    simp only [Option.some_inj, Prod.mk.injEq] at h
    exact ⟨h.1.symm, hp⟩
  · rw [if_neg hp] at h
    cases h

theorem tagP_some_suffix (t i r o : List Nat) (h : tagP t i = some (r, o)) :
    r <:+ i := by
  rw [(tagP_some t i r o h).1]
  exact List.drop_suffix _ _

theorem takeWhileP_some (p : Nat → Bool) (i r o : List Nat)
    (h : takeWhileP p i = some (r, o)) :
    r = i.dropWhile p ∧ o = i.takeWhile p := by
  rw [takeWhileP] at h
  simp only [Option.some_inj, Prod.mk.injEq] at h
  exact ⟨h.1.symm, h.2.symm⟩

theorem dropWhile_suffix_of (p : Nat → Bool) (l : List Nat) : l.dropWhile p <:+ l := by
  induction l with
  | nil => simp
  | cons x t ih =>
    rw [List.dropWhile_cons]
    by_cases hx : p x
    · simp only [hx, if_true]
      exact ih.trans (List.suffix_cons x t)
    · simp [hx]

theorem tagP_some_length (t i r o : List Nat) (h : tagP t i = some (r, o)) :
    r.length + t.length = i.length := by
  obtain ⟨hr, hp⟩ := tagP_some t i r o h
  have hle : t.length ≤ i.length :=
    (List.isPrefixOf_iff_prefix.mp hp).length_le
  rw [hr, List.length_drop]
  omega

theorem headerP_ok_suffix (i r : List Nat) (hd : Header)
    (h : headerP i = .ok (r, hd)) : r <:+ i := by
  rw [headerP] at h
  rcases e1 : takeWhileP (fun b => b != 58) i with _ | ⟨i1, name⟩
  · simp only [e1] at h; cases h
  simp only [e1] at h
  rcases e2 : tagP (ascii ": ") i1 with _ | ⟨i2, o2⟩
  · simp only [e2] at h; cases h
  simp only [e2] at h
  rcases e3 : takeWhileP (fun b => b != 13) i2 with _ | ⟨i3, value⟩
  · simp only [e3] at h; cases h
  simp only [e3] at h
  rcases e4 : tagP (ascii "\r\n") i3 with _ | ⟨i4, o4⟩
  · simp only [e4] at h; cases h
  simp only [e4] at h
  have hs1 : i1 <:+ i := by
    rw [(takeWhileP_some _ _ _ _ e1).1]
    exact dropWhile_suffix_of _ i
  have hs2 : i2 <:+ i1 := tagP_some_suffix _ _ _ _ e2
  have hs3 : i3 <:+ i2 := by
    rw [(takeWhileP_some _ _ _ _ e3).1]
    exact dropWhile_suffix_of _ i2
  have hs4 : i4 <:+ i3 := tagP_some_suffix _ _ _ _ e4
  by_cases hu : validUtf8 name && validUtf8 value
  · rw [if_pos hu] at h
    simp only [POut.ok.injEq, Prod.mk.injEq] at h
    rw [← h.1]
    exact (hs4.trans hs3).trans (hs2.trans hs1)
  · rw [if_neg hu] at h
    cases h

theorem many1F_ok_suffix :
    ∀ (fuel : Nat) (i r : List Nat) (hs : List Header),
      many1F fuel i = .ok (r, hs) → r <:+ i := by
  intro fuel
  induction fuel with
  | zero => intro i r hs h; cases h
  | succ f ih =>
    intro i r hs h
    rw [many1F] at h
    rcases e1 : headerP i with ⟨⟨rest, hd⟩⟩ | _ | _
    · simp only [e1] at h
      have hr : rest <:+ i := headerP_ok_suffix _ _ _ e1
      rcases e2 : many1F f rest with ⟨⟨rest2, tl⟩⟩ | _ | _
      · simp only [e2] at h
        simp only [POut.ok.injEq, Prod.mk.injEq] at h
        rw [← h.1]
        exact (ih _ _ _ e2).trans hr
      · simp only [e2] at h
        simp only [POut.ok.injEq, Prod.mk.injEq] at h
        rw [← h.1]
        exact hr
      · simp only [e2] at h; cases h
    · simp only [e1] at h; cases h
    · simp only [e1] at h; cases h

theorem parseRequest_ok_inv (input rest : List Nat) (req : Request)
    (h : parseRequest input = .ok (rest, req)) :
    req.content = rest ∧ rest <:+ input ∧ 32 ∉ req.path ∧ validUtf8 req.path = true := by
  rw [parseRequest] at h
  rcases e1 : methodP input with _ | ⟨i1, m⟩
  · simp only [e1] at h; cases h
  simp only [e1] at h
  rcases e2 : tagP (ascii " ") i1 with _ | ⟨i2, o2⟩
  · simp only [e2] at h; cases h
  simp only [e2] at h
  rcases e3 : takeWhileP (fun b => b != 32) i2 with _ | ⟨i3, p⟩
  · simp only [e3] at h; cases h
  simp only [e3] at h
  rcases e4 : tagP (ascii " ") i3 with _ | ⟨i4, o4⟩
  · simp only [e4] at h; cases h
  simp only [e4] at h
  rcases e5 : tagP (ascii "HTTP/1.1") i4 with _ | ⟨i5, v⟩
  · simp only [e5] at h; cases h
  simp only [e5] at h
  rcases e6 : tagP (ascii "\r\n") i5 with _ | ⟨i6, o6⟩
  · simp only [e6] at h; cases h
  simp only [e6] at h
  have hm1 : i1 <:+ input := by
    rw [methodP] at e1
    rcases eg : tagP (ascii "GET") input with _ | ⟨ig, og⟩
    · simp only [eg] at e1
      exact tagP_some_suffix _ _ _ _ e1
    · simp only [eg, Option.some_inj] at e1
      rw [e1] at eg
      exact tagP_some_suffix _ _ _ _ eg
  have hm2 : i2 <:+ i1 := tagP_some_suffix _ _ _ _ e2
  have hm3 : i3 <:+ i2 := by
    rw [(takeWhileP_some _ _ _ _ e3).1]
    exact dropWhile_suffix_of _ i2
  have hm4 : i4 <:+ i3 := tagP_some_suffix _ _ _ _ e4
  have hm5 : i5 <:+ i4 := tagP_some_suffix _ _ _ _ e5
  have hm6 : i6 <:+ i5 := tagP_some_suffix _ _ _ _ e6
  have hp : p = i2.takeWhile (fun b => b != 32) := (takeWhileP_some _ _ _ _ e3).2
  have hi6 : i6 <:+ input :=
    (hm6.trans (hm5.trans (hm4.trans (hm3.trans hm2)))).trans hm1
  have hfin :
      ∀ i7 hs, (i7 <:+ i6) →
        (match tagP (ascii "\r\n") i7 with
          | none => POut.err
          | some (i8, _) =>
            if validUtf8 m && validUtf8 p && validUtf8 v then
              POut.ok (i8, ⟨m, p, v, hs, i8⟩)
            else POut.panic) = POut.ok (rest, req) →
        req.content = rest ∧ rest <:+ input ∧ 32 ∉ req.path ∧ validUtf8 req.path = true := by
    intro i7 hs hsuf h7
    rcases e7 : tagP (ascii "\r\n") i7 with _ | ⟨i8, o8⟩
    · simp only [e7] at h7; cases h7
    simp only [e7] at h7
    by_cases hu : validUtf8 m && validUtf8 p && validUtf8 v
    · rw [if_pos hu] at h7
      simp only [POut.ok.injEq, Prod.mk.injEq] at h7
      obtain ⟨h8, hreq⟩ := h7
      have hco : req.content = rest := by rw [← hreq]; exact h8
      have hsuf8 : rest <:+ input := by
        rw [← h8]
        exact ((tagP_some_suffix _ _ _ _ e7).trans hsuf).trans hi6
      have hpath : req.path = p := by rw [← hreq]
      refine ⟨hco, hsuf8, ?_, ?_⟩
      · rw [hpath, hp]
        intro hmem
        have := List.mem_takeWhile_imp hmem
        simp at this
      · rw [hpath]
        simp only [Bool.and_eq_true] at hu
        exact hu.1.2
    · rw [if_neg hu] at h7
      cases h7
  rcases e8 : many1F (i6.length + 1) i6 with ⟨⟨i7, hs⟩⟩ | _ | _
  · simp only [e8] at h
    exact hfin i7 hs (many1F_ok_suffix _ _ _ _ e8) h
  · simp only [e8] at h
    exact hfin i6 [] (List.suffix_refl i6) h
  · simp only [e8] at h
    cases h

theorem pad1024_length (raw : List Nat) : (pad1024 raw).length = 1024 := by
  simp only [pad1024, List.length_append, List.length_take, List.length_replicate]
  omega

theorem pad1024_of_le (raw : List Nat) (h : raw.length ≤ 1024) :
    pad1024 raw = raw ++ List.replicate (1024 - raw.length) 0 := by
  rw [pad1024, List.take_of_length_le h]

theorem validUtf8_cons_of_ascii (b : Nat) (hb : b ≤ 127) (l : List Nat) :
    validUtf8 (b :: l) = validUtf8 l := by
  have hb' : utf8Lead1 b = true := by
    unfold utf8Lead1
    exact decide_eq_true hb
  cases l with
  | nil => simp [validUtf8, hb']
  | cons c1 t1 =>
    cases t1 with
    | nil => simp [validUtf8, hb']
    | cons c2 t2 =>
      cases t2 with
      | nil => simp [validUtf8, hb']
      | cons c3 t3 => simp [validUtf8, hb']

theorem validUtf8_append_of_ascii (a l : List Nat) (ha : ∀ b ∈ a, b ≤ 127) :
    validUtf8 (a ++ l) = validUtf8 l := by
  induction a with
  | nil => simp
  | cons x t ih =>
    rw [List.cons_append, validUtf8_cons_of_ascii x (ha x (List.mem_cons_self x t))]
    exact ih (fun b hb => ha b (List.mem_cons_of_mem x hb))

theorem headerP_crlf_replicate (k : Nat) (z : Nat) (hz : z ≠ 58) :
    headerP (13 :: 10 :: List.replicate k z) = .err := by
  apply headerP_no_colon
  intro x hx
  simp only [List.mem_cons] at hx
  rcases hx with rfl | rfl | hx
  · decide
  · decide
  · have hxz := List.eq_of_mem_replicate hx
    rw [hxz]
    exact hz

theorem streamLoopF_none_flag (fuel : Nat) :
    ∀ c : List Nat, (streamLoopF fuel c none).2 = false := by
  induction fuel with
  | zero =>
    intro c
    rfl
  | succ f ih =>
    intro c
    rw [streamLoopF]
    rw [if_neg (by simp)]
    by_cases h0 : c = []
    · simp [h0]
    · rw [if_neg h0]
      simpa using ih (c.drop 1024)

theorem streamLoop_none_flag (c : List Nat) : (streamLoop c none).2 = false :=
  streamLoopF_none_flag (c.length + 1) c

theorem streamLoopF_length_le (fuel : Nat) :
    ∀ (c : List Nat) (e : Option Nat), (streamLoopF fuel c e).1.length ≤ c.length := by
  induction fuel with
  | zero =>
    intro c e
    simp [streamLoopF]
  | succ f ih =>
    intro c e
    rw [streamLoopF]
    by_cases he : e = some 0
    · rw [if_pos he]
      simp
    · rw [if_neg he]
      by_cases h0 : c = []
      · simp [h0]
      · rw [if_neg h0]
        have := ih (c.drop 1024) (e.map (fun n => n - 1))
        simp only [List.length_append, List.length_take, List.length_drop] at this ⊢
        omega

theorem streamLoop_length_le (c : List Nat) (e : Option Nat) :
    (streamLoop c e).1.length ≤ c.length :=
  streamLoopF_length_le (c.length + 1) c e

theorem streamLoopF_no_err (fuel : Nat) :
    ∀ (c : List Nat) (e : Option Nat), c.length < fuel →
      (streamLoopF fuel c e).2 = false → (streamLoopF fuel c e).1 = c := by
  induction fuel with
  | zero =>
    intro c e hc
    omega
  | succ f ih =>
    intro c e hc hf
    by_cases he : e = some 0
    · rw [streamLoopF, if_pos he] at hf
      cases hf
    · rw [streamLoopF, if_neg he]
      by_cases h0 : c = []
      · simp [h0]
      · rw [if_neg h0]
        have hne : c.length ≠ 0 := by simpa [List.length_eq_zero] using h0
        have hlen : (c.drop 1024).length < f := by
          simp only [List.length_drop]
          omega
        have hf2 : (streamLoopF f (c.drop 1024) (e.map (fun n => n - 1))).2 = false := by
          rw [streamLoopF, if_neg he, if_neg h0] at hf
          simpa using hf
        simp only []
        rw [ih _ _ hlen hf2, List.take_append_drop]

theorem streamLoop_no_err (c : List Nat) (e : Option Nat)
    (h : (streamLoop c e).2 = false) : (streamLoop c e).1 = c :=
  streamLoopF_no_err (c.length + 1) c e (by omega) h

theorem uaLoop_eq_find (hs : List Header) :
    uaLoop hs
      = match hs.find? (fun h => h.name == ascii "User-Agent") with
        | some h => ⟨200, some (ascii "text/plain"), some h.value.length, h.value⟩
        | none => ⟨200, some (ascii "text/plain"), some 0, []⟩ := by
  induction hs with
  | nil => rfl
  | cons h t ih =>
    by_cases hh : h.name = ascii "User-Agent"
    · simp [uaLoop, List.find?_cons, hh]
    · simp only [uaLoop, List.find?_cons, if_neg hh]
      rw [ih]
      have : (h.name == ascii "User-Agent") = false := by
        simp [hh]
      simp [this]

theorem drainLoop_none_iff (t : List DrainStep) :
    drainLoop t = none ↔ DrainStep.eof ∉ t := by
  induction t with
  | nil => simp [drainLoop]
  | cons s t ih =>
    cases s with
    | eof => simp [drainLoop]
    | data bs =>
      simp only [drainLoop, Option.map_eq_none', ih, List.mem_cons]
      constructor
      · rintro h (hc | hc)
        · cases hc
        · exact h hc
      · intro h hc
        exact h (Or.inr hc)
    | err =>
      simp only [drainLoop, ih, List.mem_cons]
      constructor
      · rintro h (hc | hc)
        · cases hc
        · exact h hc
      · intro h hc
        exact h (Or.inr hc)

theorem ascii_slash : ascii "/" = [47] := rfl

theorem ascii_echo_lit : ascii "/echo/" = [47, 101, 99, 104, 111, 47] := rfl

theorem ascii_files_lit : ascii "/files/" = [47, 102, 105, 108, 101, 115, 47] := rfl

theorem ascii_ua_lit : ascii "/user-agent"
    = [47, 117, 115, 101, 114, 45, 97, 103, 101, 110, 116] := rfl

theorem isPrefixOf_append_self (l r : List Nat) : l.isPrefixOf (l ++ r) = true :=
  List.isPrefixOf_iff_prefix.mpr (List.prefix_append l r)

theorem writeResponse_echo (o : Oracle) (dir : Option (List Nat)) (req : Request)
    (s : List Nat) (hpath : req.path = ascii "/echo/" ++ s) :
    writeResponse o dir req
      = ([⟨200, some (ascii "text/plain"), some s.length, s⟩], none) := by
  rw [writeResponse.eq_def, hpath]
  rw [if_neg, if_neg, if_pos]
  · rw [List.drop_left]
  · exact isPrefixOf_append_self _ _
  · intro h
    simp only [ascii_echo_lit, ascii_ua_lit, List.cons_append, List.nil_append,
      List.cons.injEq] at h
    omega
  · intro h
    apply_fun List.length at h
    simp only [ascii_echo_lit, ascii_slash, List.length_append, List.length_cons,
      List.length_nil] at h
    omega

/-- The Content-Length discipline of a structured response: a declared
`Content-Length` equals the byte length of the body written after the blank
line, and a response that omits `Content-Length` also omits `Content-Type`
and carries no body bytes. -/
def respLenInvariant (r : Response) : Prop :=
  match r.contentLength with
  | some n => n = r.body.length
  | none => r.contentType = none ∧ r.body = []

/-- The one exception to the Content-Length discipline, taken verbatim from
the source's GET streaming loop: when a mid-file read errors, the 200
response whose header block is already on the wire ends up with only the
chunks streamed before the error, so its declared `Content-Length` (the
metadata length) only bounds the body from above; the source then writes a
trailing spurious 404. -/
def filesErrEscape (o : Oracle) (r : Response) : Prop :=
  o.readErrAt ≠ none ∧ r.status = 200
    ∧ r.contentType = some (ascii "application/octet-stream")
    ∧ ∃ n, r.contentLength = some n ∧ r.body.length ≤ n

theorem uaLoop_invariant (hs : List Header) : respLenInvariant (uaLoop hs) := by
  induction hs with
  | nil => simp [uaLoop, respLenInvariant]
  | cons h t ih =>
    rw [uaLoop]
    by_cases hh : h.name = ascii "User-Agent"
    · simp [hh, respLenInvariant]
    · simpa [hh] using ih

theorem handleFiles_invariant (o : Oracle) (req : Request) (fp : List Nat) :
    ∀ r ∈ (handleFiles o req fp).1, respLenInvariant r ∨ filesErrEscape o r := by
  intro r hr
  rw [handleFiles] at hr
  by_cases hg : req.method = ascii "GET"
  · rw [if_pos hg] at hr
    rcases e : o.fs fp with _ | c
    · rw [e] at hr
      simp only [List.mem_singleton] at hr
      left
      simp [hr, resp404, respLenInvariant]
    · simp only [e] at hr
      by_cases hf : (streamLoop c o.readErrAt).2 = true
      · rw [if_pos hf] at hr
        rcases List.mem_cons.mp hr with hr | hr
        · subst hr
          right
          refine ⟨?_, rfl, rfl, c.length, rfl, streamLoop_length_le c o.readErrAt⟩
          intro hnone
          rw [hnone, streamLoop_none_flag c] at hf
          cases hf
        · simp only [List.mem_singleton] at hr
          left
          simp [hr, resp404, respLenInvariant]
      · have hf2 : (streamLoop c o.readErrAt).2 = false := by
          simpa using hf
        rw [if_neg hf] at hr
        rcases List.mem_cons.mp hr with hr | hr
        · subst hr
          left
          have hb := streamLoop_no_err c o.readErrAt hf2
          simp [respLenInvariant, hb]
        · cases hr
  · rw [if_neg hg] at hr
    by_cases hp : req.method = ascii "POST"
    · rw [if_pos hp] at hr
      by_cases hc : o.createOk
      · rw [if_pos hc] at hr
        rcases e : drainLoop o.drain with _ | extra
        · rw [e] at hr
          simp at hr
        · rw [e] at hr
          simp only [List.mem_singleton] at hr
          left
          simp [hr, resp201, respLenInvariant]
      · rw [if_neg hc] at hr
        simp only [List.mem_singleton] at hr
        left
        simp [hr, resp404, respLenInvariant]
    · rw [if_neg hp] at hr
      simp only [List.mem_singleton] at hr
      left
      simp [hr, resp404, respLenInvariant]

theorem writeResponse_invariant (o : Oracle) (dir : Option (List Nat)) (req : Request) :
    ∀ r ∈ (writeResponse o dir req).1, respLenInvariant r ∨ filesErrEscape o r := by
  intro r hr
  rw [writeResponse.eq_def] at hr
  by_cases h1 : req.path = ascii "/"
  · rw [if_pos h1] at hr
    simp only [List.mem_singleton] at hr
    left
    simp [hr, respLenInvariant]
  · rw [if_neg h1] at hr
    by_cases h2 : req.path = ascii "/user-agent"
    · rw [if_pos h2] at hr
      simp only [List.mem_singleton] at hr
      rw [hr]
      left
      exact uaLoop_invariant req.headers
    · rw [if_neg h2] at hr
      by_cases h3 : (ascii "/echo/").isPrefixOf req.path = true
      · rw [if_pos h3] at hr
        simp only [List.mem_singleton] at hr
        left
        simp [hr, respLenInvariant]
      · rw [if_neg h3] at hr
        by_cases h4 : (ascii "/files/").isPrefixOf req.path = true
        · rw [if_pos h4] at hr
          rcases dir with _ | d
          · simp only [List.mem_singleton] at hr
            left
            simp [hr, resp404, respLenInvariant]
          · exact handleFiles_invariant o req _ r hr
        · rw [if_neg h4] at hr
          simp only [List.mem_singleton] at hr
          left
          simp [hr, resp404, respLenInvariant]

theorem handleConnection_invariant (o : Oracle) (dir : Option (List Nat)) (raw : List Nat) :
    ∀ r ∈ (handleConnection o dir raw).1, respLenInvariant r ∨ filesErrEscape o r := by
  intro r hr
  rw [handleConnection.eq_def] at hr
  rcases e : readRequest raw with req | _ | _
  · simp only [e] at hr
    exact writeResponse_invariant o dir req r hr
  · simp only [e] at hr
    cases hr
  · simp only [e] at hr
    cases hr

theorem writeResponse_files (o : Oracle) (d : List Nat) (req : Request) (su : List Nat)
    (hpath : req.path = ascii "/files/" ++ su) :
    writeResponse o (some d) req = handleFiles o req (d ++ [47] ++ su) := by
  rw [writeResponse.eq_def, hpath]
  rw [if_neg, if_neg, if_neg, if_pos (isPrefixOf_append_self _ _)]
  · simp only [List.drop_left]
  · intro h
    rw [List.isPrefixOf_iff_prefix] at h
    obtain ⟨t, ht⟩ := h
    simp only [ascii_echo_lit, ascii_files_lit, List.cons_append, List.nil_append,
      List.cons.injEq] at ht
    omega
  · intro h
    simp only [ascii_files_lit, ascii_ua_lit, List.cons_append, List.nil_append,
      List.cons.injEq] at h
    omega
  · intro h
    apply_fun List.length at h
    simp only [ascii_files_lit, ascii_slash, List.length_append, List.length_cons,
      List.length_nil] at h
    omega

theorem handleFiles_post (o : Oracle) (req : Request) (fp extra : List Nat)
    (hm : req.method = ascii "POST") (hc : o.createOk = true)
    (he : drainLoop o.drain = some extra) :
    handleFiles o req fp
      = ([resp201], some (fp, (if o.contentWriteOk then req.content else []) ++ extra)) := by
  rw [handleFiles.eq_def, hm, if_neg (by decide), if_pos rfl, if_pos hc, he]

theorem echo_request_parse (s : List Nat) (hu : validUtf8 s = true)
    (h13 : 13 ∉ s) (h32 : 32 ∉ s) (hlen : s.length ≤ 1001) :
    readRequest (ascii "GET /echo/" ++ s ++ ascii " HTTP/1.1\r\n\r\n")
      = POut.ok ⟨ascii "GET", ascii "/echo/" ++ s, ascii "HTTP/1.1", [],
          List.replicate (1024 - (ascii "GET /echo/" ++ s ++ ascii " HTTP/1.1\r\n\r\n").length) 0⟩ := by
  have l1 : (ascii "GET /echo/").length = 10 := rfl
  have l2 : (ascii " HTTP/1.1\r\n\r\n").length = 13 := rfl
  have hraw : (ascii "GET /echo/" ++ s ++ ascii " HTTP/1.1\r\n\r\n").length = s.length + 23 := by
    simp only [List.length_append, l1, l2]
    omega
  have hle : (ascii "GET /echo/" ++ s ++ ascii " HTTP/1.1\r\n\r\n").length ≤ 1024 := by
    rw [hraw]
    omega
  have hpad := pad1024_of_le _ hle
  have hshape : (ascii "GET /echo/" ++ s ++ ascii " HTTP/1.1\r\n\r\n")
        ++ List.replicate (1024 - (ascii "GET /echo/" ++ s ++ ascii " HTTP/1.1\r\n\r\n").length) 0
      = encodeGet (ascii "/echo/" ++ s) []
          (List.replicate (1024 - (ascii "GET /echo/" ++ s ++ ascii " HTTP/1.1\r\n\r\n").length) 0) := by
    have e1 : ascii "GET /echo/" = ascii "GET " ++ ascii "/echo/" := rfl
    have e2 : ascii " HTTP/1.1\r\n\r\n" = ascii " HTTP/1.1\r\n" ++ ascii "\r\n" := rfl
    rw [encodeGet]
    simp only [encodeHeaders, List.nil_append]
    rw [e1, e2]
    simp [List.append_assoc]
  have hp32 : 32 ∉ ascii "/echo/" ++ s := by
    intro hmem
    rcases List.mem_append.mp hmem with hc | hc
    · exact absurd hc (by decide)
    · exact h32 hc
  have hpu : validUtf8 (ascii "/echo/" ++ s) = true := by
    rw [validUtf8_append_of_ascii (ascii "/echo/") s (by decide)]
    exact hu
  have hparse := parseRequest_encodeGet (ascii "/echo/" ++ s) []
    (List.replicate (1024 - (ascii "GET /echo/" ++ s ++ ascii " HTTP/1.1\r\n\r\n").length) 0)
    hp32 hpu (by simp) (headerP_crlf_replicate _ 0 (by decide))
  rw [readRequest.eq_def, hpad, hshape, hparse]
  rfl

theorem echo_identity_general (o : Oracle) (dir : Option (List Nat)) (s : List Nat)
    (hu : validUtf8 s = true) (h13 : 13 ∉ s) (h32 : 32 ∉ s)
    (hlen : s.length ≤ 1001) :
    handleConnection o dir (ascii "GET /echo/" ++ s ++ ascii " HTTP/1.1\r\n\r\n")
      = ([⟨200, some (ascii "text/plain"), some s.length, s⟩], none) := by
  rw [handleConnection.eq_def, echo_request_parse s hu h13 h32 hlen]
  exact writeResponse_echo o dir _ s rfl

set_option maxRecDepth 1000000 in
/-- Claim C1 (code bug): for `POST /files/f` with body `hello` the server
does respond 201, but the file does not contain exactly the body bytes: the
read count is discarded, so `request.content` is the whole remainder of the
zero-initialised 1024-byte buffer and the created file holds `hello`
followed by 993 NUL bytes. -/
theorem post_writes_padded_buffer :
    handleConnection ⟨fun _ => none, true, true, [DrainStep.eof], none⟩ (some (ascii "/tmp"))
        (ascii "POST /files/f HTTP/1.1\r\n\r\nhello")
      = ([resp201], some (ascii "/tmp/f", ascii "hello" ++ List.replicate 993 0))
    ∧ ascii "hello" ++ List.replicate 993 0 ≠ ascii "hello" := by
  refine ⟨by decide, by decide⟩

/-- Claim C2 counterexample: the request `GET / HTTP/1.1\r\n\r\n: \r\n` is of
the spec's well-formed shape with no headers and body `: \r\n`, yet the
parser fails: `many1(header)` swallows the blank line and the body as a
bogus header, after which the terminating CRLF is missing. -/
theorem parse_body_colon_counterexample :
    wellFormedFields (ascii "/") []
    ∧ parseRequest (encodeGet (ascii "/") [] (ascii ": \r\n")) = POut.err := by
  refine ⟨by decide, by decide⟩

/-- Claim C2 (amended): for every well-formed `GET` request whose trailing
bytes `\r\n<body>` do not themselves parse as a header, the parser succeeds
and recovers the method, path, version, the headers in their original order,
and exactly the leftover bytes as the request body. -/
theorem parse_wellformed_get (path : List Nat) (headers : List (List Nat × List Nat))
    (body : List Nat) (hwf : wellFormedFields path headers)
    (hbody : headerP (ascii "\r\n" ++ body) = POut.err) :
    parseRequest (encodeGet path headers body)
      = POut.ok (body, ⟨ascii "GET", path, ascii "HTTP/1.1",
          headers.map (fun h => ⟨h.1, h.2⟩), body⟩) := by
  obtain ⟨h32, hu, hh⟩ := hwf
  have hbody' : headerP (13 :: 10 :: body) = POut.err := hbody
  exact parseRequest_encodeGet path headers body h32 hu hh hbody'

/-- Claim C2 witness: the theorem applied to a concrete request with one
header and body `BD`. -/
theorem parse_wellformed_get_witness :
    parseRequest (encodeGet (ascii "/idx") [(ascii "Host", ascii "example")] (ascii "BD"))
      = POut.ok (ascii "BD", ⟨ascii "GET", ascii "/idx", ascii "HTTP/1.1",
          [⟨ascii "Host", ascii "example"⟩], ascii "BD"⟩) :=
  parse_wellformed_get (ascii "/idx") [(ascii "Host", ascii "example")] (ascii "BD")
    (by decide) (by decide)

/-- Claim C3 (code bug): a request line whose path contains the invalid
UTF-8 byte 0xFF makes the parser panic (the source's
`from_utf8(path).unwrap()`), rather than return a ParseError. -/
theorem parse_invalid_utf8_panics :
    parseRequest (ascii "GET /" ++ [255] ++ ascii " HTTP/1.1\r\n\r\n") = POut.panic := by
  decide

/-- Claim C4 counterexample: a drain trace beginning with a would-block
error does not exit the loop: the loop retries and still appends the bytes
of a later successful read, so the drained bytes are `[65]`, not the `[]`
an immediate exit would produce. -/
theorem drain_wouldblock_continues :
    drainLoop [DrainStep.err, DrainStep.data [65], DrainStep.eof] = some [65]
    ∧ some [65] ≠ (some [] : Option (List Nat)) := by
  refine ⟨by decide, by decide⟩

/-- Claim C4 (amended): in the POST branch with a successful file creation,
the drain loop exits (and the 201 response is written) exactly when some
read returns zero bytes; `Err(_)` results, including would-block, are
ignored and the loop keeps retrying. -/
theorem drain_exit_iff_eof (o : Oracle) (req : Request) (fp : List Nat)
    (hm : req.method = ascii "POST") (hc : o.createOk = true) :
    (handleFiles o req fp).1 = [resp201] ↔ DrainStep.eof ∈ o.drain := by
  rw [handleFiles.eq_def, hm, if_neg (by decide), if_pos rfl, if_pos hc]
  rcases e : drainLoop o.drain with _ | extra
  · have hno : DrainStep.eof ∉ o.drain := (drainLoop_none_iff _).mp e
    simp [hno, resp201]
  · have hyes : DrainStep.eof ∈ o.drain := by
      by_contra hno
      rw [← drainLoop_none_iff o.drain] at hno
      rw [e] at hno
      cases hno
    simp [hyes]

/-- Claim C4 witness: the theorem applied to a concrete POST request and a
trace that would-blocks once before the zero-byte read. -/
theorem drain_exit_iff_eof_witness :
    (handleFiles ⟨fun _ => none, true, true, [DrainStep.err, DrainStep.eof], none⟩
        ⟨ascii "POST", ascii "/files/a", ascii "HTTP/1.1", [], []⟩ (ascii "/d/a")).1
      = [resp201]
    ↔ DrainStep.eof ∈ [DrainStep.err, DrainStep.eof] :=
  drain_exit_iff_eof ⟨fun _ => none, true, true, [DrainStep.err, DrainStep.eof], none⟩
    ⟨ascii "POST", ascii "/files/a", ascii "HTTP/1.1", [], []⟩ (ascii "/d/a") rfl rfl

set_option maxRecDepth 1000000 in
/-- Claim C5 counterexample: the `/user-agent` route with no `User-Agent`
header writes a response with zero body bytes that still declares both
`Content-Type: text/plain` and `Content-Length: 0`, so a response carrying
no body does not omit those headers. -/
theorem response_empty_body_with_headers :
    (handleConnection ⟨fun _ => none, true, true, [], none⟩ none
        (ascii "GET /user-agent HTTP/1.1\r\n\r\n")).1
      = [⟨200, some (ascii "text/plain"), some 0, []⟩]
    ∧ (⟨200, some (ascii "text/plain"), some 0, []⟩ : Response).body = []
    ∧ (⟨200, some (ascii "text/plain"), some 0, []⟩ : Response).contentType ≠ none
    ∧ (⟨200, some (ascii "text/plain"), some 0, []⟩ : Response).contentLength ≠ none := by
  refine ⟨by decide, rfl, by decide, by decide⟩

/-- Claim C5 (amended): every response the server writes that declares a
`Content-Length` declares it equal to the exact byte length of its body, and
every response that omits `Content-Length` also omits `Content-Type` and
carries no body — with two deviations the code exhibits: the `/user-agent`
route can declare `Content-Length: 0` with `Content-Type` on an empty body
(still a correctly declared length), and a GET `/files` response whose
streaming loop hits a mid-file read error keeps the already-sent header
block declaring the full metadata length over a truncated body (followed by
a spurious trailing 404), so there the declared length only bounds the body
from above. -/
theorem content_length_discipline (o : Oracle) (dir : Option (List Nat))
    (raw : List Nat) (r : Response) (hr : r ∈ (handleConnection o dir raw).1) :
    respLenInvariant r ∨ filesErrEscape o r :=
  handleConnection_invariant o dir raw r hr

set_option maxRecDepth 1000000 in
/-- Claim C5 witness: the theorem instantiated at the truncated 200 response
the server writes for `GET /files/a` over a three-byte file whose very first
read errors: the response declares `Content-Length: 3` with an empty body
and falls under the read-error escape. -/
theorem content_length_discipline_witness :
    respLenInvariant ⟨200, some (ascii "application/octet-stream"), some 3, []⟩
    ∨ filesErrEscape
        ⟨fun p => if p = ascii "/d/a" then some [7, 8, 9] else none,
          true, true, [], some 0⟩
        ⟨200, some (ascii "application/octet-stream"), some 3, []⟩ :=
  content_length_discipline
    ⟨fun p => if p = ascii "/d/a" then some [7, 8, 9] else none,
      true, true, [], some 0⟩
    (some (ascii "/d")) (ascii "GET /files/a HTTP/1.1\r\n\r\n")
    ⟨200, some (ascii "application/octet-stream"), some 3, []⟩ (by decide)

/-- Claim C6 counterexample: `GET  HTTP/1.1\r\n\r\n` (two spaces) parses
successfully and produces a Request whose path is the empty byte string,
which is neither non-empty nor starts with `/`. -/
theorem parse_empty_path_counterexample :
    parseRequest (ascii "GET  HTTP/1.1\r\n\r\n")
      = POut.ok ([], ⟨ascii "GET", [], ascii "HTTP/1.1", [], []⟩) := by
  decide

/-- Claim C6 (amended): the parser validates nothing about the path beyond
what `take_while` guarantees: every successfully parsed Request has a path
that contains no space byte and is valid UTF-8; the path may be empty and
need not start with `/`. -/
theorem parsed_path_space_free (input rest : List Nat) (req : Request)
    (h : parseRequest input = POut.ok (rest, req)) :
    32 ∉ req.path ∧ validUtf8 req.path = true := by
  obtain ⟨-, -, h32, hu⟩ := parseRequest_ok_inv input rest req h
  exact ⟨h32, hu⟩

/-- Claim C6 witness: the amended theorem applied to a concrete request. -/
theorem parsed_path_space_free_witness :
    32 ∉ (Request.mk (ascii "GET") (ascii "/x") (ascii "HTTP/1.1") [] []).path
    ∧ validUtf8 (Request.mk (ascii "GET") (ascii "/x") (ascii "HTTP/1.1") [] []).path = true :=
  parsed_path_space_free (ascii "GET /x HTTP/1.1\r\n\r\n") []
    ⟨ascii "GET", ascii "/x", ascii "HTTP/1.1", [], []⟩ (by decide)

/-- Claim C7: for every request whose path is `/user-agent`, the handler
scans the headers in order and the first header whose name equals the byte
string `User-Agent` (case-sensitively) determines the response: 200 with
body equal to that header's value and `Content-Length` equal to the value's
byte length; with no such header the response is still 200 with
`Content-Length: 0` and an empty body, never a 404. -/
theorem user_agent_first_match (o : Oracle) (dir : Option (List Nat)) (req : Request)
    (hpath : req.path = ascii "/user-agent") :
    writeResponse o dir req
      = ([match req.headers.find? (fun h => h.name == ascii "User-Agent") with
          | some h => ⟨200, some (ascii "text/plain"), some h.value.length, h.value⟩
          | none => ⟨200, some (ascii "text/plain"), some 0, []⟩], none) := by
  rw [writeResponse.eq_def, hpath, if_neg (by decide), if_pos rfl, uaLoop_eq_find]

/-- Claim C7 witness: with duplicate `User-Agent` headers the first one
wins. -/
theorem user_agent_first_match_witness :
    writeResponse ⟨fun _ => none, true, true, [], none⟩ none
        ⟨ascii "GET", ascii "/user-agent", ascii "HTTP/1.1",
          [⟨ascii "User-Agent", ascii "one"⟩, ⟨ascii "User-Agent", ascii "two"⟩], []⟩
      = ([⟨200, some (ascii "text/plain"), some 3, ascii "one"⟩], none) :=
  (user_agent_first_match ⟨fun _ => none, true, true, [], none⟩ none
    ⟨ascii "GET", ascii "/user-agent", ascii "HTTP/1.1",
      [⟨ascii "User-Agent", ascii "one"⟩, ⟨ascii "User-Agent", ascii "two"⟩], []⟩
    rfl).trans (by decide)

set_option maxRecDepth 1000000 in
/-- Claim C8 counterexample: for `s = "a b"`, a string without carriage
returns, the request `GET /echo/a b HTTP/1.1\r\n\r\n` yields no response at
all: the path parser stops at the space, the version tag fails, and the
connection is dropped on the ParseError. -/
theorem echo_space_no_response :
    (13 ∉ ascii "a b")
    ∧ handleConnection ⟨fun _ => none, true, true, [], none⟩ none
        (ascii "GET /echo/a b HTTP/1.1\r\n\r\n") = ([], none) := by
  refine ⟨by decide, by decide⟩

/-- Claim C8 (amended): for every string `s` (valid UTF-8 bytes) containing
neither carriage return nor space, and short enough that the request fits
the 1024-byte read window, `GET /echo/<s> HTTP/1.1\r\n\r\n` yields exactly
one response: 200 with body `s` and `Content-Length` equal to the byte
length of `s`. -/
theorem echo_identity (o : Oracle) (dir : Option (List Nat)) (s : List Nat)
    (hu : validUtf8 s = true) (h13 : 13 ∉ s) (h32 : 32 ∉ s)
    (hlen : s.length ≤ 1001) :
    handleConnection o dir (ascii "GET /echo/" ++ s ++ ascii " HTTP/1.1\r\n\r\n")
      = ([⟨200, some (ascii "text/plain"), some s.length, s⟩], none) :=
  echo_identity_general o dir s hu h13 h32 hlen

/-- Claim C8 witness: the echo identity at `s = "abc"`. -/
theorem echo_identity_witness :
    handleConnection ⟨fun _ => none, true, true, [], none⟩ none
        (ascii "GET /echo/" ++ ascii "abc" ++ ascii " HTTP/1.1\r\n\r\n")
      = ([⟨200, some (ascii "text/plain"), some (ascii "abc").length, ascii "abc"⟩], none) :=
  echo_identity ⟨fun _ => none, true, true, [], none⟩ none (ascii "abc")
    (by decide) (by decide) (by decide) (by decide)

/-- Claim C9: the content of every Request the parser produces extends to
the end of the fixed 1024-byte read buffer: it is the suffix of the
zero-padded buffer that follows the bytes consumed by the request line and
header block, so the consumed prefix and the content always total 1024
bytes (the read count being discarded, the zero padding is included). -/
theorem request_content_fills_buffer (raw : List Nat) (req : Request)
    (h : readRequest raw = POut.ok req) :
    ∃ pre, pre ++ req.content = pad1024 raw
      ∧ pre.length + req.content.length = 1024 := by
  rw [readRequest.eq_def] at h
  rcases e : parseRequest (pad1024 raw) with ⟨⟨rest, r⟩⟩ | _ | _
  · simp only [e] at h
    have hr : r = req := by simpa using h
    obtain ⟨hc, hsuf, -, -⟩ := parseRequest_ok_inv _ _ _ e
    obtain ⟨pre, hpre⟩ := hsuf
    refine ⟨pre, ?_, ?_⟩
    · rw [← hr, hc]
      exact hpre
    · have hl := congrArg List.length hpre
      simp only [List.length_append, pad1024_length] at hl
      rw [← hr, hc]
      omega
  · simp only [e] at h
    cases h
  · simp only [e] at h
    cases h

set_option maxRecDepth 1000000 in
/-- Claim C9 witness: for `GET / HTTP/1.1\r\n\r\nab` the content is the two
body bytes followed by 1004 padding zeros, and together with the 18 consumed
bytes it fills the 1024-byte buffer. -/
theorem request_content_fills_buffer_witness :
    ∃ pre, pre ++ (Request.mk (ascii "GET") (ascii "/") (ascii "HTTP/1.1") []
        (ascii "ab" ++ List.replicate 1004 0)).content
          = pad1024 (ascii "GET / HTTP/1.1\r\n\r\nab")
      ∧ pre.length + (Request.mk (ascii "GET") (ascii "/") (ascii "HTTP/1.1") []
          (ascii "ab" ++ List.replicate 1004 0)).content.length = 1024 :=
  request_content_fills_buffer (ascii "GET / HTTP/1.1\r\n\r\nab")
    ⟨ascii "GET", ascii "/", ascii "HTTP/1.1", [], ascii "ab" ++ List.replicate 1004 0⟩
    (by decide)

/-- Claim C10: once `File::create` succeeds for a `POST /files/<name>`
request and the drain loop sees a zero-byte read, the server responds 201
regardless of whether the write of the body bytes into the file succeeds
(its result is discarded), for any file-system oracle and any drained
bytes. -/
theorem post_created_responds_201 (o : Oracle) (req : Request) (d su : List Nat)
    (hpath : req.path = ascii "/files/" ++ su) (hm : req.method = ascii "POST")
    (hc : o.createOk = true) (he : DrainStep.eof ∈ o.drain) :
    (writeResponse o (some d) req).1 = [resp201] := by
  rw [writeResponse_files o d req su hpath]
  rcases e : drainLoop o.drain with _ | extra
  · exact absurd he ((drainLoop_none_iff _).mp e)
  · rw [handleFiles_post o req _ extra hm hc e]

/-- Claim C10 witness: the theorem at a concrete POST whose content write
fails (`contentWriteOk = false`); the response is still 201. -/
theorem post_created_responds_201_witness :
    (writeResponse ⟨fun _ => none, true, false, [DrainStep.eof], none⟩ (some (ascii "/d"))
        ⟨ascii "POST", ascii "/files/" ++ ascii "a", ascii "HTTP/1.1", [], ascii "xyz"⟩).1
      = [resp201] :=
  post_created_responds_201 ⟨fun _ => none, true, false, [DrainStep.eof], none⟩
    ⟨ascii "POST", ascii "/files/" ++ ascii "a", ascii "HTTP/1.1", [], ascii "xyz"⟩
    (ascii "/d") (ascii "a") rfl rfl rfl (by decide)

theorem headerP_ok_length (i r : List Nat) (hd : Header)
    (h : headerP i = .ok (r, hd)) : r.length + 4 ≤ i.length := by
  rw [headerP] at h
  rcases e1 : takeWhileP (fun b => b != 58) i with _ | ⟨i1, name⟩
  · simp only [e1] at h; cases h
  simp only [e1] at h
  rcases e2 : tagP (ascii ": ") i1 with _ | ⟨i2, o2⟩
  · simp only [e2] at h; cases h
  simp only [e2] at h
  rcases e3 : takeWhileP (fun b => b != 13) i2 with _ | ⟨i3, value⟩
  · simp only [e3] at h; cases h
  simp only [e3] at h
  rcases e4 : tagP (ascii "\r\n") i3 with _ | ⟨i4, o4⟩
  · simp only [e4] at h; cases h
  simp only [e4] at h
  by_cases hu : validUtf8 name && validUtf8 value
  · rw [if_pos hu] at h
    simp only [POut.ok.injEq, Prod.mk.injEq] at h
    have l1 : i1.length ≤ i.length := by
      rw [(takeWhileP_some _ _ _ _ e1).1]
      exact (dropWhile_suffix_of _ i).length_le
    have l2 := tagP_some_length _ _ _ _ e2
    have l3 : i3.length ≤ i2.length := by
      rw [(takeWhileP_some _ _ _ _ e3).1]
      exact (dropWhile_suffix_of _ i2).length_le
    have l4 := tagP_some_length _ _ _ _ e4
    have lcs : (ascii ": ").length = 2 := rfl
    have lcr : (ascii "\r\n").length = 2 := rfl
    rw [lcs] at l2
    rw [lcr] at l4
    rw [← h.1]
    omega
  · rw [if_neg hu] at h
    cases h
